import Mathlib

/-!
Shallow embedding of the `ai-interview-simulator` orchestration core
(`config.py`, `agents/base_agent.py`, `agents/committee_agent.py`,
`core/workflow.py`, `core/memory.py`) and proofs of the specification
claims about it.

Python dynamic values are modelled by the inductive type `JVal`
(JSON-shaped values as returned by `LLMClient._parse_json_response`),
machine floats by `ℚ`, and Python exceptions by the `Except PyExc`
monad, so that code paths that raise (`AttributeError`, `TypeError`)
are visible in the embedding.
-/

namespace InterviewSim

/-- JSON-shaped dynamic value, the kind of data `_parse_json_response`
can hand to the normalizers. -/
inductive JVal where
  | num (q : ℚ)
  | str (s : String)
  | bool (b : Bool)
  | arr (xs : List JVal)
  | obj (fields : List (String × JVal))
  | null

/-- Python exceptions that the embedded code can raise. -/
inductive PyExc where
  | attributeError (msg : String)
  | typeError (msg : String)
deriving DecidableEq

/-- Substring test on character lists (`needle in haystack` for Python
strings). -/
def listIsInfix (needle : List Char) : List Char → Bool
  | [] => needle.isEmpty
  | c :: rest => needle.isPrefixOf (c :: rest) || listIsInfix needle rest

/-- Python `needle in haystack` on strings. -/
def pyInStr (needle hay : String) : Bool :=
  listIsInfix needle.data hay.data

/-- Python `str.strip()` (both-ends whitespace strip). -/
def pyStrip (s : String) : String :=
  ⟨((s.data.dropWhile Char.isWhitespace).reverse.dropWhile Char.isWhitespace).reverse⟩

/-- One step list for Python `str.replace(old, new)` (replace every
non-overlapping occurrence, left to right); `fuel` bounds recursion by
the haystack length. -/
def replaceAllAux (fuel : ℕ) (pat rep : List Char) : List Char → List Char
  | s =>
    match fuel, s with
    | 0, s => s
    | _ + 1, [] => []
    | f + 1, c :: rest =>
      if ¬ pat.isEmpty && pat.isPrefixOf (c :: rest) then
        rep ++ replaceAllAux f pat rep ((c :: rest).drop pat.length)
      else
        c :: replaceAllAux f pat rep rest

/-- Python `s.replace(pat, rep)`. -/
def pyReplace (s pat rep : String) : String :=
  ⟨replaceAllAux s.data.length pat.data rep.data s.data⟩

/-- Python `int(x)` on a number: truncation toward zero. -/
def pyInt (q : ℚ) : ℤ :=
  if 0 ≤ q then ⌊q⌋ else ⌈q⌉

/-- Python `key in value` where `key` is a string: key membership for a
dict, element equality for a list, substring test for a string, and a
`TypeError` for non-iterable values. -/
def pyContainsStr (key : String) : JVal → Except PyExc Bool
  | .obj fields => .ok (fields.any fun kv => kv.1 == key)
  | .arr xs => .ok (xs.any fun v => match v with | .str t => t == key | _ => false)
  | .str s => .ok (pyInStr key s)
  | .num _ => .error (.typeError "argument of type int or float is not iterable")
  | .bool _ => .error (.typeError "argument of type bool is not iterable")
  | .null => .error (.typeError "argument of type NoneType is not iterable")

/-- Python `value.get(key, default)`: dict lookup with default, and an
`AttributeError` on every non-dict value (this is what a parsed JSON
array hits). -/
def pyGetD (v : JVal) (key : String) (default : JVal) : Except PyExc JVal :=
  match v with
  | .obj fields => .ok ((List.lookup key fields).getD default)
  | .arr _ => .error (.attributeError "list object has no attribute get")
  | .str _ => .error (.attributeError "str object has no attribute get")
  | .num _ => .error (.attributeError "int or float object has no attribute get")
  | .bool _ => .error (.attributeError "bool object has no attribute get")
  | .null => .error (.attributeError "NoneType object has no attribute get")

/-- Python `iter(value)`: list of elements for a list, characters (as
1-character strings) for a string, keys for a dict, `TypeError`
otherwise. -/
def pyElems : JVal → Except PyExc (List JVal)
  | .arr xs => .ok xs
  | .str s => .ok (s.data.map fun c => .str ⟨[c]⟩)
  | .obj fields => .ok (fields.map fun kv => .str kv.1)
  | .num _ => .error (.typeError "int or float object is not iterable")
  | .bool _ => .error (.typeError "bool object is not iterable")
  | .null => .error (.typeError "NoneType object is not iterable")

/-- `isinstance(x, (int, float))` — in Python `bool` is a subclass of
`int`, so booleans count as numeric. -/
def isNumericJVal : JVal → Bool
  | .num _ => true
  | .bool _ => true
  | _ => false

/-- Numeric value of a Python number for `int(...)`: booleans coerce
to 0/1. -/
def numericValue : JVal → ℚ
  | .num q => q
  | .bool b => if b then 1 else 0
  | _ => 0

/-! ## `config.py` -/

/-- `config.SCORE_MIN`. -/
def SCORE_MIN : ℤ := 0

/-- `config.SCORE_MAX`. -/
def SCORE_MAX : ℤ := 10

/-- `config.WEAKNESS_TAGS` (flattened from `WEAKNESS_TAGS_BY_CATEGORY`
in category order). -/
def WEAKNESS_TAGS : List String :=
  ["结构不清晰", "表达冗长", "逻辑不连贯", "缺少具体案例",
   "统计基础薄弱", "SQL细节欠缺", "Python能力待加强", "实验设计不完整", "指标理解不深",
   "缺少业务视角", "与岗位不够相关", "缺少落地结果", "缺乏数据思维", "业务敏感度不足",
   "沟通表达待加强", "项目深度不够", "案例准备不充分", "自我认知不足", "团队协作经验少"]

/-- `config.STRENGTH_TAGS` (flattened from `STRENGTH_TAGS_BY_CATEGORY`
in category order). -/
def STRENGTH_TAGS : List String :=
  ["结构清晰", "表达简洁", "逻辑严谨", "案例具体生动",
   "统计功底扎实", "SQL能力强", "Python熟练", "实验设计规范", "指标体系清晰",
   "业务理解深", "数据驱动思维", "有落地成果", "数据敏感度高", "能产出洞察",
   "沟通表达好", "项目经验丰富", "学习能力强", "有成长心态", "团队协作好"]

/-- One entry of `config.INTERVIEW_ROUNDS_CONFIG`. -/
structure RoundConfig where
  name : String
  weight : ℚ
  min_questions : ℕ
  max_questions : ℕ
  follow_up_enabled : Bool
deriving DecidableEq

/-- `config.INTERVIEW_ROUNDS_CONFIG` (insertion order preserved). -/
def INTERVIEW_ROUNDS_CONFIG : List (String × RoundConfig) :=
  [("HR", ⟨"HR 初筛", 15/100, 1, 2, true⟩),
   ("HiringManager", ⟨"业务用人经理面试", 25/100, 1, 2, true⟩),
   ("Technical", ⟨"技术/分析面试", 35/100, 1, 2, true⟩),
   ("CultureFit", ⟨"文化契合度面试", 15/100, 1, 1, true⟩),
   ("Committee", ⟨"终面评审委员会", 10/100, 0, 0, false⟩)]

/-- `config.INTERVIEW_ROUNDS`. -/
def INTERVIEW_ROUNDS : List String :=
  ["HR", "HiringManager", "Technical", "CultureFit", "Committee"]

/-- One value of `config.SCORE_LEVELS`. -/
structure ScoreLevelInfo where
  level : String
  emoji : String
  decision : String
deriving DecidableEq

/-- The `(5, 6)` entry of `config.SCORE_LEVELS`
(`SCORE_LEVELS[(5, 6)]`, used as the fallback of `get_score_level`). -/
def SCORE_LEVEL_MID : ScoreLevelInfo := ⟨"中等", "💪", "候补/观察"⟩

/-- `config.SCORE_LEVELS` (insertion order preserved; band bounds as
numbers, entries as `ScoreLevelInfo`). -/
def SCORE_LEVELS : List ((ℚ × ℚ) × ScoreLevelInfo) :=
  [((9, 10), ⟨"优秀", "🌟", "强烈推荐"⟩),
   ((7, 8), ⟨"良好", "👍", "推荐通过"⟩),
   ((5, 6), SCORE_LEVEL_MID),
   ((3, 4), ⟨"待提升", "📚", "暂不推荐"⟩),
   ((0, 2), ⟨"不足", "⚠️", "不通过"⟩)]

/-- `config.get_score_level`: first band `(low, high)` with
`low <= score <= high` wins; if no band matches, `SCORE_LEVELS[(5, 6)]`
is returned. -/
def get_score_level (score : ℚ) : ScoreLevelInfo :=
  match SCORE_LEVELS.find? (fun e => decide (e.1.1 ≤ score) && decide (score ≤ e.1.2)) with
  | some e => e.2
  | none => SCORE_LEVEL_MID

/-- `config.FOLLOW_UP_CONFIG` as a record. -/
structure FollowUpConfig where
  enabled : Bool
  max_follow_ups : ℕ
  trigger_score_threshold : ℚ
  trigger_keywords : List String
deriving DecidableEq

/-- `config.FOLLOW_UP_CONFIG`. -/
def FOLLOW_UP_CONFIG : FollowUpConfig :=
  ⟨true, 1, 6, ["不清楚", "不太确定", "可能", "大概"]⟩

/-! ## `agents/base_agent.py` -/

/-- The canonical evaluation record returned by
`BaseAgent._normalize_evaluation_result`. -/
structure EvalResult where
  score : ℚ
  feedback : JVal
  weakness_tags : List String
  strength_tags : List String
  key_points : JVal
  improvement_hint : JVal
  raw_error : Option JVal

/-- `max(SCORE_MIN, min(SCORE_MAX, int(score)))` for a numeric Python
value. -/
def clampScore (v : JVal) : ℚ :=
  ((max SCORE_MIN (min SCORE_MAX (pyInt (numericValue v))) : ℤ) : ℚ)

/-- The weakness-tag filter comprehension of
`_normalize_evaluation_result`: keep the iterated values that are
strings belonging to `WEAKNESS_TAGS` (a non-string element never
equals a vocabulary string, so it is dropped). -/
def filterWeakness (elems : List JVal) : List String :=
  elems.filterMap fun t =>
    match t with
    | .str s => if WEAKNESS_TAGS.contains s then some s else none
    | _ => none

/-- The strength-tag filter comprehension of
`_normalize_evaluation_result`. -/
def filterStrength (elems : List JVal) : List String :=
  elems.filterMap fun t =>
    match t with
    | .str s => if STRENGTH_TAGS.contains s then some s else none
    | _ => none

/-- `BaseAgent._normalize_evaluation_result`, line by line: the error
branch returns the fallback record; otherwise the score is truncated
and clamped if numeric (defaulting to 5), tags are filtered against the
controlled vocabularies, and the free-text fields are passed through
with defaults. Non-dict inputs raise exactly where Python raises. -/
def normalize_evaluation_result (result : JVal) : Except PyExc EvalResult :=
  match pyContainsStr "error" result with
  | .error e => .error e
  | .ok true =>
    match pyGetD result "raw" (.str "") with
    | .error e => .error e
    | .ok raw =>
      .ok { score := 5
            feedback := .str "评估过程出现问题，请重试。"
            weakness_tags := []
            strength_tags := []
            key_points := .arr []
            improvement_hint := .str ""
            raw_error := some raw }
  | .ok false =>
    match pyGetD result "score" (.num 5) with
    | .error e => .error e
    | .ok scoreV =>
      let score : ℚ := if isNumericJVal scoreV then clampScore scoreV else 5
      match pyGetD result "weakness_tags" (.arr []) with
      | .error e => .error e
      | .ok wRaw =>
        match pyElems wRaw with
        | .error e => .error e
        | .ok wElems =>
          let weakness_tags := filterWeakness wElems
          match pyGetD result "strength_tags" (.arr []) with
          | .error e => .error e
          | .ok sRaw =>
            match pyElems sRaw with
            | .error e => .error e
            | .ok sElems =>
              let strength_tags := filterStrength sElems
              match pyGetD result "feedback" (.str "") with
              | .error e => .error e
              | .ok feedback =>
                match pyGetD result "key_points" (.arr []) with
                | .error e => .error e
                | .ok key_points =>
                  match pyGetD result "improvement_hint" (.str "") with
                  | .error e => .error e
                  | .ok improvement_hint =>
                    .ok { score := score
                          feedback := feedback
                          weakness_tags := weakness_tags
                          strength_tags := strength_tags
                          key_points := key_points
                          improvement_hint := improvement_hint
                          raw_error := none }

/-- First configured trigger keyword occurring in the answer (the
`for keyword in trigger_keywords` loop of `should_follow_up`). -/
def findTriggerKeyword (keywords : List String) (answer : String) : Option String :=
  keywords.find? fun kw => pyInStr kw answer

/-- `BaseAgent.should_follow_up` with the static `FOLLOW_UP_CONFIG`
made an explicit argument: disabled → no follow-up; score below the
threshold → needs more detail; a trigger keyword in the answer →
clarify that keyword; trimmed answer shorter than 50 → too brief;
otherwise no follow-up. -/
def should_follow_up (cfg : FollowUpConfig) (answer : String)
    (evaluation : EvalResult) : Bool × String :=
  if ¬ cfg.enabled then (false, "")
  else if evaluation.score < cfg.trigger_score_threshold then
    (true, "回答需要更多细节")
  else
    match findTriggerKeyword cfg.trigger_keywords answer with
    | some keyword => (true, "回答中提到「" ++ keyword ++ "」，需要澄清")
    | none =>
      if (pyStrip answer).length < 50 then (true, "回答较简短，可以展开")
      else (false, "")

/-! ## `core/memory.py` — SessionMemory -/

/-- One entry of `SessionMemory.rounds` as appended by
`SessionMemory.add_round` (the wall-clock timestamp is not modelled). -/
structure RoundRecord where
  role : String
  question : String
  answer : String
  score : ℚ
  feedback : JVal
  weakness_tags : List String
  strength_tags : List String
  key_points : JVal
  improvement_hint : JVal
  is_follow_up : Bool

/-- Round the way Python `round(x, 2)` does on an exact value:
half-to-even at the second decimal. -/
def round2 (q : ℚ) : ℚ :=
  (roundHalfEven (q * 100) : ℚ) / 100
where
  /-- Round an exact value to the nearest integer, ties to even. -/
  roundHalfEven (x : ℚ) : ℤ :=
    let f := ⌊x⌋
    let r := x - f
    if r < 1/2 then f
    else if 1/2 < r then f + 1
    else if f % 2 = 0 then f else f + 1

/-- The final evaluation record returned by
`CommitteeAgent._normalize_final_evaluation` (plus the
`comparative_analysis` field `run_committee_evaluation` may add). -/
structure FinalEval where
  final_score : ℚ
  decision : JVal
  decision_reason : JVal
  overall_feedback : JVal
  dimension_scores : JVal
  key_strengths : JVal
  key_weaknesses : JVal
  improvement_suggestions : JVal
  practice_focus : JVal
  next_steps : JVal
  raw_error : Option JVal
  comparative_analysis : Option String

/-- `core/memory.SessionMemory`: the ordered round records and the
optional terminal final evaluation (user id, position, timestamps not
modelled). -/
structure SessionMemory where
  rounds : List RoundRecord
  final_evaluation : Option FinalEval

/-- `SessionMemory.add_round` (append; the record carries
`is_follow_up`). -/
def addRound (session : SessionMemory) (r : RoundRecord) : SessionMemory :=
  { session with rounds := session.rounds ++ [r] }

/-- `SessionMemory.get_average_score`: rounded simple mean of all round
scores, `0.0` on an empty session. -/
def get_average_score (session : SessionMemory) : ℚ :=
  let scores := session.rounds.map (·.score)
  if scores.isEmpty then 0
  else round2 (scores.sum / scores.length)

/-- `SessionMemory.get_all_weakness_tags`: all round weakness tags,
deduplicated (first occurrence kept as the representative of the
Python `set`). -/
def get_all_weakness_tags (session : SessionMemory) : List String :=
  ((session.rounds.map (·.weakness_tags)).flatten).eraseDups

/-- `SessionMemory.get_all_strength_tags`. -/
def get_all_strength_tags (session : SessionMemory) : List String :=
  ((session.rounds.map (·.strength_tags)).flatten).eraseDups

/-! ## `core/memory.py` — UserMemory -/

/-- One entry of `UserMemory.interview_history` as appended by
`InterviewWorkflow.run_full_interview` (timestamps not modelled;
`final_score` is `Option` because `final_eval.get("final_score")` can
be `None` for records loaded from disk). -/
structure HistoryEntry where
  final_score : Option ℚ
  weighted_score : ℚ
  decision : JVal
  rounds_count : ℕ
  key_strengths : JVal
  key_weaknesses : JVal

/-- `UserMemory.data["statistics"]`. -/
structure Statistics where
  total_interviews : ℕ
  average_score : ℚ
  best_score : ℚ
  recent_trend : String
  most_common_weakness : String
  most_common_strength : String
deriving DecidableEq

/-- The default statistics block of `UserMemory._default_profile`. -/
def defaultStatistics : Statistics := ⟨0, 0, 0, "", "", ""⟩

/-- The in-memory state of a `UserMemory` profile (tag maps modelled as
insertion-ordered association lists, as Python dicts are). -/
structure UserMemory where
  weakness_tags : List (String × ℕ)
  strength_tags : List (String × ℕ)
  interview_history : List HistoryEntry
  statistics : Statistics

/-- Python truthiness of `h.get("final_score")`: false for a missing
value, `None`, and the number `0`. -/
def pyTruthyScore : Option ℚ → Bool
  | none => false
  | some q => decide (q ≠ 0)

/-- `dict[tag] = dict.get(tag, 0) + 1` on an insertion-ordered
association list. -/
def bumpTag (tags : List (String × ℕ)) (tag : String) : List (String × ℕ) :=
  if tags.any (·.1 == tag) then
    tags.map fun kv => if kv.1 == tag then (kv.1, kv.2 + 1) else kv
  else
    tags ++ [(tag, 1)]

/-- `UserMemory.add_weakness_tags` / `add_strength_tags`: bump each
non-empty tag (`if tag:` filters the empty string). -/
def addTagCounts (tags : List (String × ℕ)) (new : List String) : List (String × ℕ) :=
  new.foldl (fun acc tag => if tag = "" then acc else bumpTag acc tag) tags

/-- Stable descending insertion by count (`sorted(..., key=lambda x:
x[1], reverse=True)` is stable). -/
def insertByCountDesc (x : String × ℕ) : List (String × ℕ) → List (String × ℕ)
  | [] => [x]
  | y :: ys => if y.2 < x.2 then x :: y :: ys else y :: insertByCountDesc x ys

/-- Tag pairs sorted by count, descending, stably. -/
def sortByCountDesc (tags : List (String × ℕ)) : List (String × ℕ) :=
  tags.foldl (fun acc x => insertByCountDesc x acc) []

/-- `UserMemory.get_top_weaknesses`. -/
def get_top_weaknesses (user : UserMemory) (n : ℕ) : List (String × ℕ) :=
  (sortByCountDesc user.weakness_tags).take n

/-- `UserMemory.get_top_strengths`. -/
def get_top_strengths (user : UserMemory) (n : ℕ) : List (String × ℕ) :=
  (sortByCountDesc user.strength_tags).take n

/-- Maximum of a non-empty score list (`max(scores)`). -/
def pyMaxScores : List ℚ → ℚ
  | [] => 0
  | x :: xs => xs.foldl max x

/-- The score list `_update_statistics` aggregates over:
`[h.get("final_score", 0) for h in history if h.get("final_score")]` —
a truthiness filter, so entries with score 0, `None` or no score at all
are excluded. -/
def truthyScores (history : List HistoryEntry) : List ℚ :=
  history.filterMap fun h =>
    if pyTruthyScore h.final_score then h.final_score else none

/-- `UserMemory._update_statistics`: `total_interviews` counts every
history entry; the score aggregates are computed over the entries with
a truthy `final_score` only (`if h.get("final_score")`), and are left
untouched when that filtered list is empty; the trend compares the
last 3 truthy scores with the earlier ones; the most-common tags come
from the count-sorted tag maps. -/
def update_statistics (user : UserMemory) : UserMemory :=
  let history := user.interview_history
  let stats0 := { user.statistics with total_interviews := history.length }
  let stats1 :=
    if history.isEmpty then stats0
    else
      let scores := truthyScores history
      if scores.isEmpty then stats0
      else
        let stats := { stats0 with
          average_score := round2 (scores.sum / scores.length)
          best_score := pyMaxScores scores }
        if 4 ≤ scores.length then
          let recent := (scores.drop (scores.length - 3)).sum / 3
          let earlier := (scores.take (scores.length - 3)).sum / ((scores.length - 3 : ℕ) : ℚ)
          { stats with recent_trend :=
              if earlier + 1/2 < recent then "improving"
              else if recent < earlier - 1/2 then "declining"
              else "stable" }
        else stats
  let stats2 :=
    match get_top_weaknesses user 1 with
    | [] => stats1
    | t :: _ => { stats1 with most_common_weakness := t.1 }
  let stats3 :=
    match get_top_strengths user 1 with
    | [] => stats2
    | t :: _ => { stats2 with most_common_strength := t.1 }
  { user with statistics := stats3 }

/-- `UserMemory.save`: recompute statistics, then persist (persistence
is modelled by the `Bool` flag the caller records). -/
def saveUserMemory (user : UserMemory) : UserMemory :=
  update_statistics user

/-! ## `agents/committee_agent.py` -/

/-- The session summary built by
`InterviewWorkflow.run_committee_evaluation`. -/
structure SessionSummary where
  rounds : List RoundRecord
  average_score : ℚ
  weighted_score : ℚ
  all_weakness_tags : List String
  all_strength_tags : List String

/-- `CommitteeAgent._normalize_final_evaluation`: an error-marked
result falls back to the session average score and the literal decision
`"候补"`; otherwise the score is truncated and clamped to `[0, 10]`
(default 5) and the decision defaults to the `get_score_level` lookup
of that score when absent. -/
def normalize_final_evaluation (result : JVal) (session_summary : SessionSummary) :
    Except PyExc FinalEval :=
  match pyContainsStr "error" result with
  | .error e => .error e
  | .ok true =>
    match pyGetD result "raw" (.str "") with
    | .error e => .error e
    | .ok raw =>
      .ok { final_score := session_summary.average_score
            decision := .str "候补"
            decision_reason := .str "评估生成过程出现问题，请参考各轮反馈。"
            overall_feedback := .str "系统暂时无法生成完整评估，建议查看各轮次的详细反馈。"
            dimension_scores := .obj []
            key_strengths := .arr ((session_summary.all_strength_tags.take 3).map .str)
            key_weaknesses := .arr ((session_summary.all_weakness_tags.take 3).map .str)
            improvement_suggestions := .arr [.str "建议重新进行面试模拟以获取完整评估"]
            practice_focus := .arr []
            next_steps := .str "请重试面试模拟"
            raw_error := some raw
            comparative_analysis := none }
  | .ok false =>
    match pyGetD result "final_score" (.num 5) with
    | .error e => .error e
    | .ok fsV =>
      let final_score : ℚ := if isNumericJVal fsV then clampScore fsV else 5
      let score_info := get_score_level final_score
      match pyGetD result "decision" (.str score_info.decision) with
      | .error e => .error e
      | .ok decision =>
        match pyGetD result "decision_reason" (.str "") with
        | .error e => .error e
        | .ok decision_reason =>
          match pyGetD result "overall_feedback" (.str "") with
          | .error e => .error e
          | .ok overall_feedback =>
            match pyGetD result "dimension_scores" (.obj []) with
            | .error e => .error e
            | .ok dimension_scores =>
              match pyGetD result "key_strengths" (.arr []) with
              | .error e => .error e
              | .ok key_strengths =>
                match pyGetD result "key_weaknesses" (.arr []) with
                | .error e => .error e
                | .ok key_weaknesses =>
                  match pyGetD result "improvement_suggestions" (.arr []) with
                  | .error e => .error e
                  | .ok improvement_suggestions =>
                    match pyGetD result "practice_focus" (.arr []) with
                    | .error e => .error e
                    | .ok practice_focus =>
                      match pyGetD result "next_steps" (.str "") with
                      | .error e => .error e
                      | .ok next_steps =>
                        .ok { final_score := final_score
                              decision := decision
                              decision_reason := decision_reason
                              overall_feedback := overall_feedback
                              dimension_scores := dimension_scores
                              key_strengths := key_strengths
                              key_weaknesses := key_weaknesses
                              improvement_suggestions := improvement_suggestions
                              practice_focus := practice_focus
                              next_steps := next_steps
                              raw_error := none
                              comparative_analysis := none }

/-! ## `core/workflow.py` -/

/-- `InterviewWorkflow.get_round_name`. -/
def get_round_name (round_key : String) : String :=
  match List.lookup round_key INTERVIEW_ROUNDS_CONFIG with
  | some config => config.name
  | none => round_key

/-- `InterviewWorkflow.get_round_weight` (`config.get("weight", 0.2)`). -/
def get_round_weight (round_key : String) : ℚ :=
  match List.lookup round_key INTERVIEW_ROUNDS_CONFIG with
  | some config => config.weight
  | none => 2/10

/-- The external inputs one round of `run_single_round` consumes: the
generated question, the candidate answer, the raw structured evaluation
the generation capability returns, and the same three for a potential
follow-up exchange. -/
structure RoundOracle where
  question : String
  answer : String
  eval_raw : JVal
  follow_up_question : String
  follow_up_answer : String
  follow_up_eval_raw : JVal

/-- One entry of a round outcome's `questions` list. -/
structure QuestionEntry where
  question : String
  answer : String
  evaluation : EvalResult
  is_follow_up : Bool
  follow_up_reason : Option String

/-- The dict `run_single_round` returns. -/
structure RoundOutcome where
  round : String
  round_name : String
  questions : List QuestionEntry
  final_score : ℚ

/-- The `session.add_round(...)` record built from a normalized
evaluation. -/
def roundRecordOf (role question answer : String) (ev : EvalResult)
    (is_follow_up : Bool) : RoundRecord :=
  ⟨role, question, answer, ev.score, ev.feedback, ev.weakness_tags,
   ev.strength_tags, ev.key_points, ev.improvement_hint, is_follow_up⟩

/-- `InterviewWorkflow._handle_follow_up`: evaluate the follow-up
answer, append the `role + "_followup"` record with
`is_follow_up = True`, and return the follow-up question entry. -/
def handle_follow_up (agentKey : String) (o : RoundOracle) (reason : String)
    (session : SessionMemory) : Except PyExc (SessionMemory × QuestionEntry) :=
  match normalize_evaluation_result o.follow_up_eval_raw with
  | .error e => .error e
  | .ok follow_up_eval =>
    let session := addRound session
      (roundRecordOf (agentKey ++ "_followup") o.follow_up_question
        o.follow_up_answer follow_up_eval true)
    .ok (session, ⟨o.follow_up_question, o.follow_up_answer, follow_up_eval,
      true, some reason⟩)

/-- `InterviewWorkflow.run_single_round`: evaluate the main answer,
append its record, and — when the round config enables follow-ups, the
policy fires and the feature is globally enabled — run the single
follow-up, appending its entry and overwriting `final_score` with the
follow-up evaluation's score. -/
def run_single_round (agentKey : String) (session : SessionMemory)
    (o : RoundOracle) : Except PyExc (SessionMemory × RoundOutcome) :=
  let round_name := get_round_name agentKey
  let follow_up_enabled :=
    match List.lookup agentKey INTERVIEW_ROUNDS_CONFIG with
    | some config => config.follow_up_enabled
    | none => false
  match normalize_evaluation_result o.eval_raw with
  | .error e => .error e
  | .ok evaluation =>
    let session := addRound session
      (roundRecordOf agentKey o.question o.answer evaluation false)
    let result : RoundOutcome :=
      ⟨agentKey, round_name, [⟨o.question, o.answer, evaluation, false, none⟩],
       evaluation.score⟩
    if follow_up_enabled then
      let (should, reason) := should_follow_up FOLLOW_UP_CONFIG o.answer evaluation
      if should && FOLLOW_UP_CONFIG.enabled then
        match handle_follow_up agentKey o reason session with
        | .error e => .error e
        | .ok (session, fuEntry) =>
          .ok (session, { result with
            questions := result.questions ++ [fuEntry]
            final_score := fuEntry.evaluation.score })
      else .ok (session, result)
    else .ok (session, result)

/-- `InterviewWorkflow._calculate_weighted_score`: accumulate
`score * weight` and `weight` per record, re-attributing follow-up
records to the base role by stripping the `"_followup"` suffix, and
divide, rounding to 2 decimals (`0.0` when the total weight is not
positive). -/
def calculate_weighted_score (rounds : List RoundRecord) : ℚ :=
  let acc := rounds.foldl
    (fun (acc : ℚ × ℚ) r =>
      let role := pyReplace r.role "_followup" ""
      let weight := get_round_weight role
      (acc.1 + weight, acc.2 + r.score * weight))
    (0, 0)
  if 0 < acc.1 then round2 (acc.2 / acc.1) else 0

/-- The weight a round record contributes to the composite: the base
role (follow-up suffix stripped) looked up in the static weight
table. -/
def wOf (r : RoundRecord) : ℚ :=
  get_round_weight (pyReplace r.role "_followup" "")

/-- The session summary `run_committee_evaluation` hands to the
committee agent. -/
def build_session_summary (session : SessionMemory) : SessionSummary :=
  ⟨session.rounds, get_average_score session, calculate_weighted_score session.rounds,
   get_all_weakness_tags session, get_all_strength_tags session⟩

/-- `InterviewWorkflow.run_committee_evaluation`: normalize the panel
synthesis result (the raw structured panel output is an oracle input),
attach the comparative analysis when the candidate has prior history,
and store the result as the session's final evaluation. -/
def run_committee_evaluation (user : UserMemory) (session : SessionMemory)
    (panel_raw : JVal) (comparative : String) :
    Except PyExc (SessionMemory × FinalEval) :=
  let summary := build_session_summary session
  match normalize_final_evaluation panel_raw summary with
  | .error e => .error e
  | .ok final0 =>
    let final1 :=
      if user.interview_history.isEmpty then final0
      else { final0 with comparative_analysis := some comparative }
    .ok ({ session with final_evaluation := some final1 }, final1)

/-- The round order `run_full_interview` iterates
(`INTERVIEW_ROUNDS` minus `"Committee"`). -/
def round_order : List String :=
  INTERVIEW_ROUNDS.filter (fun r => ¬ r == "Committee")

/-- The round loop of `run_full_interview`, threading the session. -/
def run_rounds (oracleFor : String → RoundOracle) :
    List String → SessionMemory → Except PyExc (SessionMemory × List RoundOutcome)
  | [], session => .ok (session, [])
  | key :: rest, session =>
    match run_single_round key session (oracleFor key) with
    | .error e => .error e
    | .ok (session1, outcome) =>
      match run_rounds oracleFor rest session1 with
      | .error e => .error e
      | .ok (session2, outcomes) => .ok (session2, outcome :: outcomes)

/-- What `InterviewWorkflow.run_full_interview` leaves behind: the
updated user memory, the final session, the per-round results, and
whether the two persistence calls (`user_memory.save()`,
`session.save()`) were reached. -/
structure FullInterviewResult where
  user : UserMemory
  session : SessionMemory
  round_results : List RoundOutcome
  user_saved : Bool
  session_saved : Bool

/-- `InterviewWorkflow.run_full_interview`: run every round in the
fixed order, run the committee evaluation, fold the session tags and a
new history entry into the user memory, recompute statistics via
`save`, and persist both memories. -/
def run_full_interview (user0 : UserMemory) (oracleFor : String → RoundOracle)
    (panel_raw : JVal) (comparative : String) : Except PyExc FullInterviewResult :=
  let session0 : SessionMemory := ⟨[], none⟩
  match run_rounds oracleFor round_order session0 with
  | .error e => .error e
  | .ok (session1, round_results) =>
    match run_committee_evaluation user0 session1 panel_raw comparative with
    | .error e => .error e
    | .ok (session2, final_eval) =>
      let user1 := { user0 with
        weakness_tags := addTagCounts user0.weakness_tags (get_all_weakness_tags session2) }
      let user2 := { user1 with
        strength_tags := addTagCounts user1.strength_tags (get_all_strength_tags session2) }
      let entry : HistoryEntry :=
        ⟨some final_eval.final_score, calculate_weighted_score session2.rounds,
         final_eval.decision, session2.rounds.length, final_eval.key_strengths,
         final_eval.key_weaknesses⟩
      let user3 := { user2 with interview_history := user2.interview_history ++ [entry] }
      let user4 := saveUserMemory user3
      .ok ⟨user4, session2, round_results, true, true⟩

/-! ## Concrete inputs used by the witnesses -/

/-- The three-round session of the weighted-composite scenario
(HR = 8, Technical = 4, CultureFit = 9, no follow-ups). -/
def exampleRounds : List RoundRecord :=
  [⟨"HR", "q1", "a1", 8, .str "", [], [], .arr [], .str "", false⟩,
   ⟨"Technical", "q2", "a2", 4, .str "", [], [], .arr [], .str "", false⟩,
   ⟨"CultureFit", "q3", "a3", 9, .str "", [], [], .arr [], .str "", false⟩]

/-- A fresh candidate profile. -/
def exampleUser : UserMemory := ⟨[], [], [], defaultStatistics⟩

/-- A round oracle whose answer is long, keyword-free and scored 7, so
no follow-up fires. -/
def exampleOracle : RoundOracle :=
  ⟨"main question",
   "this answer is deliberately long enough to avoid the brevity rule of the policy",
   .obj [("score", .num 7)],
   "follow-up question", "follow-up answer", .obj [("score", .num 6)]⟩

/-- A round oracle whose answer contains the hedging keyword 「可能」
and is short, so a follow-up fires; the follow-up evaluation scores 9
while the main one scores 7. -/
def exampleOracleShort : RoundOracle :=
  ⟨"main question", "可能吧",
   .obj [("score", .num 7)],
   "follow-up question", "follow-up answer long enough to not matter",
   .obj [("score", .num 9)]⟩

/-- A history whose entries all have a zero or missing final score. -/
def exampleUser9 : UserMemory :=
  ⟨[("结构不清晰", 2)], [], [⟨some 0, 0, .null, 4, .null, .null⟩, ⟨none, 0, .null, 4, .null, .null⟩],
   ⟨0, 42/10, 9, "", "", ""⟩⟩

/-- The error sentinel `_parse_json_response` returns on unparsable
panel output. -/
def examplePanelError : List (String × JVal) :=
  [("error", .str "JSON解析失败"), ("raw", .str "boom")]

/-! ## Claim theorems -/

section ClaimProofs

attribute [local semireducible] Rat.add Rat.mul Rat.sub Rat.inv

/-- Shape of every successful run of `_normalize_evaluation_result` on
a dict: either the error branch fired, or the score/tag fields are the
normalized ones. -/
lemma normalize_obj_elim (fields : List (String × JVal)) (ev : EvalResult)
    (h : normalize_evaluation_result (.obj fields) = .ok ev) :
    ((fields.any fun kv => kv.1 == "error") = true ∧
      ev.score = 5 ∧ ev.weakness_tags = [] ∧ ev.strength_tags = []) ∨
    ((fields.any fun kv => kv.1 == "error") = false ∧
      ev.score = (if isNumericJVal ((List.lookup "score" fields).getD (.num 5)) then
          clampScore ((List.lookup "score" fields).getD (.num 5)) else 5) ∧
      (∃ wElems, pyElems ((List.lookup "weakness_tags" fields).getD (.arr [])) = .ok wElems ∧
        ev.weakness_tags = filterWeakness wElems) ∧
      (∃ sElems, pyElems ((List.lookup "strength_tags" fields).getD (.arr [])) = .ok sElems ∧
        ev.strength_tags = filterStrength sElems)) := by
  cases hb : fields.any fun kv => kv.1 == "error" with
  | true =>
    left
    simp only [normalize_evaluation_result, pyContainsStr, hb, pyGetD,
      Except.ok.injEq] at h
    subst h
    exact ⟨rfl, rfl, rfl, rfl⟩
  | false =>
    right
    simp only [normalize_evaluation_result, pyContainsStr, hb, pyGetD] at h
    cases hw : pyElems ((List.lookup "weakness_tags" fields).getD (.arr [])) with
    | error e => rw [hw] at h; exact absurd h (by simp)
    | ok wElems =>
      rw [hw] at h
      cases hs : pyElems ((List.lookup "strength_tags" fields).getD (.arr [])) with
      | error e => rw [hs] at h; exact absurd h (by simp)
      | ok sElems =>
        rw [hs] at h
        simp only [Except.ok.injEq] at h
        subst h
        exact ⟨rfl, rfl, ⟨wElems, rfl, rfl⟩, ⟨sElems, rfl, rfl⟩⟩

/-- C1: for every structured dict result the normalizer accepts, the
output score is an integer with `SCORE_MIN ≤ s ≤ SCORE_MAX`; an
error-marked result yields exactly 5; a numeric score is truncated to
integer and clamped; a missing or non-numeric score defaults to 5. -/
theorem C1_normalized_score_int_and_bounded (fields : List (String × JVal)) (ev : EvalResult)
    (h : normalize_evaluation_result (.obj fields) = .ok ev) :
    ((∃ n : ℤ, ev.score = (n : ℚ)) ∧ (SCORE_MIN : ℚ) ≤ ev.score ∧ ev.score ≤ (SCORE_MAX : ℚ)) ∧
    ((fields.any fun kv => kv.1 == "error") = true → ev.score = 5) ∧
    ((fields.any fun kv => kv.1 == "error") = false →
      ∀ q : ℚ, List.lookup "score" fields = some (.num q) →
        ev.score = ((max SCORE_MIN (min SCORE_MAX (pyInt q)) : ℤ) : ℚ)) ∧
    ((fields.any fun kv => kv.1 == "error") = false →
      List.lookup "score" fields = none → ev.score = 5) ∧
    ((fields.any fun kv => kv.1 == "error") = false →
      ∀ v, List.lookup "score" fields = some v → isNumericJVal v = false → ev.score = 5) := by
  have hscore5 : ((5 : ℤ) : ℚ) = 5 := by norm_num
  have hbounds : ∀ k : ℤ, (SCORE_MIN : ℚ) ≤ ((max SCORE_MIN (min SCORE_MAX k) : ℤ) : ℚ) ∧
      ((max SCORE_MIN (min SCORE_MAX k) : ℤ) : ℚ) ≤ (SCORE_MAX : ℚ) := by
    intro k
    constructor
    · exact_mod_cast le_max_left SCORE_MIN (min SCORE_MAX k)
    · have h1 : max SCORE_MIN (min SCORE_MAX k) ≤ SCORE_MAX :=
        max_le (by norm_num [SCORE_MIN, SCORE_MAX]) (min_le_left _ _)
      exact_mod_cast h1
  rcases normalize_obj_elim fields ev h with ⟨hb, hs, _, _⟩ | ⟨hb, hs, _, _⟩
  · refine ⟨⟨⟨5, by rw [hs]; norm_num⟩, ?_, ?_⟩, fun _ => hs, ?_, ?_, ?_⟩
    · rw [hs]; norm_num [SCORE_MIN]
    · rw [hs]; norm_num [SCORE_MAX]
    · intro hfalse; rw [hb] at hfalse; cases hfalse
    · intro hfalse; rw [hb] at hfalse; cases hfalse
    · intro hfalse _ hv; rw [hb] at hfalse; cases hfalse
  · refine ⟨?_, ?_, ?_, ?_, ?_⟩
    · rcases hnum : isNumericJVal ((List.lookup "score" fields).getD (.num 5)) with _ | _
      · rw [hs, if_neg (by simp [hnum])]
        exact ⟨⟨5, by norm_num⟩, by norm_num [SCORE_MIN], by norm_num [SCORE_MAX]⟩
      · rw [hs, if_pos (by simp [hnum])]
        exact ⟨⟨_, rfl⟩, (hbounds _).1, (hbounds _).2⟩
    · intro htrue; rw [hb] at htrue; cases htrue
    · intro _ q hq
      rw [hs, hq]
      simp only [Option.getD_some, isNumericJVal, if_pos]
      rfl
    · intro _ hq
      rw [hs, hq]
      simp only [Option.getD_none, isNumericJVal, if_pos]
      show ((max SCORE_MIN (min SCORE_MAX (pyInt 5)) : ℤ) : ℚ) = 5
      norm_num [pyInt, SCORE_MIN, SCORE_MAX]
    · intro _ v hv hnum
      rw [hs, hv]
      simp only [Option.getD_some, hnum]
      rw [if_neg (by simp [hnum])]

/-- Witness for C1 at the concrete result `{"score": 3.7}`: the
normalizer yields the integer score 3 within the bounds. -/
theorem C1_witness :
    ∃ ev, normalize_evaluation_result (.obj [("score", .num (37/10))]) = .ok ev ∧
      (∃ n : ℤ, ev.score = (n : ℚ)) ∧ (SCORE_MIN : ℚ) ≤ ev.score ∧ ev.score ≤ (SCORE_MAX : ℚ) ∧
      ev.score = 3 := by
  refine ⟨_, rfl, ?_⟩
  have h := C1_normalized_score_int_and_bounded [("score", .num (37/10))] _ rfl
  exact ⟨h.1.1, h.1.2.1, h.1.2.2, by decide⟩

/-- The weakness filter keeps exactly the vocabulary members of a list
of strings. -/
lemma filterWeakness_map_str (ts : List String) :
    filterWeakness (ts.map .str) = ts.filter fun t => WEAKNESS_TAGS.contains t := by
  induction ts with
  | nil => rfl
  | cons t ts ih =>
    cases hc : WEAKNESS_TAGS.contains t with
    | true =>
      have hm : t ∈ WEAKNESS_TAGS := by simpa using hc
      have h1 : filterWeakness ((t :: ts).map .str) = t :: filterWeakness (ts.map .str) := by
        simp [filterWeakness, List.filterMap_cons, hm]
      have h2 : (t :: ts).filter (fun t => WEAKNESS_TAGS.contains t) =
          t :: ts.filter (fun t => WEAKNESS_TAGS.contains t) := by
        rw [List.filter_cons, if_pos (by rw [hc])]
      rw [h1, h2, ih]
    | false =>
      have hm : t ∉ WEAKNESS_TAGS := by simpa using hc
      have h1 : filterWeakness ((t :: ts).map .str) = filterWeakness (ts.map .str) := by
        simp [filterWeakness, List.filterMap_cons, hm]
      have h2 : (t :: ts).filter (fun t => WEAKNESS_TAGS.contains t) =
          ts.filter (fun t => WEAKNESS_TAGS.contains t) := by
        rw [List.filter_cons, if_neg (by rw [hc]; exact Bool.false_ne_true)]
      rw [h1, h2, ih]

/-- The strength filter keeps exactly the vocabulary members of a list
of strings. -/
lemma filterStrength_map_str (ts : List String) :
    filterStrength (ts.map .str) = ts.filter fun t => STRENGTH_TAGS.contains t := by
  induction ts with
  | nil => rfl
  | cons t ts ih =>
    cases hc : STRENGTH_TAGS.contains t with
    | true =>
      have hm : t ∈ STRENGTH_TAGS := by simpa using hc
      have h1 : filterStrength ((t :: ts).map .str) = t :: filterStrength (ts.map .str) := by
        simp [filterStrength, List.filterMap_cons, hm]
      have h2 : (t :: ts).filter (fun t => STRENGTH_TAGS.contains t) =
          t :: ts.filter (fun t => STRENGTH_TAGS.contains t) := by
        rw [List.filter_cons, if_pos (by rw [hc])]
      rw [h1, h2, ih]
    | false =>
      have hm : t ∉ STRENGTH_TAGS := by simpa using hc
      have h1 : filterStrength ((t :: ts).map .str) = filterStrength (ts.map .str) := by
        simp [filterStrength, List.filterMap_cons, hm]
      have h2 : (t :: ts).filter (fun t => STRENGTH_TAGS.contains t) =
          ts.filter (fun t => STRENGTH_TAGS.contains t) := by
        rw [List.filter_cons, if_neg (by rw [hc]; exact Bool.false_ne_true)]
      rw [h1, h2, ih]

/-- Every string the weakness filter lets through is in the
vocabulary. -/
lemma mem_filterWeakness (elems : List JVal) (t : String)
    (ht : t ∈ filterWeakness elems) : t ∈ WEAKNESS_TAGS := by
  simp only [filterWeakness, List.mem_filterMap] at ht
  obtain ⟨v, _, hf⟩ := ht
  cases v with
  | str s =>
    simp at hf
    obtain ⟨hm, rfl⟩ := hf
    exact hm
  | num q => simp at hf
  | bool b => simp at hf
  | arr xs => simp at hf
  | obj fs => simp at hf
  | null => simp at hf

/-- Every string the strength filter lets through is in the
vocabulary. -/
lemma mem_filterStrength (elems : List JVal) (t : String)
    (ht : t ∈ filterStrength elems) : t ∈ STRENGTH_TAGS := by
  simp only [filterStrength, List.mem_filterMap] at ht
  obtain ⟨v, _, hf⟩ := ht
  cases v with
  | str s =>
    simp at hf
    obtain ⟨hm, rfl⟩ := hf
    exact hm
  | num q => simp at hf
  | bool b => simp at hf
  | arr xs => simp at hf
  | obj fs => simp at hf
  | null => simp at hf

/-- C7: normalization filters tags by the controlled vocabularies —
every output tag is in the respective vocabulary, vocabulary tags pass
through unchanged, and unknown tags are removed. -/
theorem C7_tags_filtered_by_vocabulary (fields : List (String × JVal)) (ev : EvalResult)
    (h : normalize_evaluation_result (.obj fields) = .ok ev) :
    (∀ t ∈ ev.weakness_tags, t ∈ WEAKNESS_TAGS) ∧
    (∀ t ∈ ev.strength_tags, t ∈ STRENGTH_TAGS) ∧
    (∀ ts : List String, (fields.any fun kv => kv.1 == "error") = false →
      List.lookup "weakness_tags" fields = some (.arr (ts.map .str)) →
      ev.weakness_tags = ts.filter fun t => WEAKNESS_TAGS.contains t) ∧
    (∀ ts : List String, (fields.any fun kv => kv.1 == "error") = false →
      List.lookup "strength_tags" fields = some (.arr (ts.map .str)) →
      ev.strength_tags = ts.filter fun t => STRENGTH_TAGS.contains t) := by
  rcases normalize_obj_elim fields ev h with ⟨hb, _, hw, hs⟩ |
    ⟨hb, _, ⟨wElems, hw, hwt⟩, ⟨sElems, hsE, hst⟩⟩
  · refine ⟨?_, ?_, ?_, ?_⟩
    · intro t ht; rw [hw] at ht; cases ht
    · intro t ht; rw [hs] at ht; cases ht
    · intro ts hfalse _; rw [hb] at hfalse; cases hfalse
    · intro ts hfalse _; rw [hb] at hfalse; cases hfalse
  · refine ⟨?_, ?_, ?_, ?_⟩
    · intro t ht; rw [hwt] at ht; exact mem_filterWeakness wElems t ht
    · intro t ht; rw [hst] at ht; exact mem_filterStrength sElems t ht
    · intro ts _ hlook
      rw [hlook] at hw
      simp only [Option.getD_some, pyElems, Except.ok.injEq] at hw
      rw [hwt, ← hw, filterWeakness_map_str]
    · intro ts _ hlook
      rw [hlook] at hsE
      simp only [Option.getD_some, pyElems, Except.ok.injEq] at hsE
      rw [hst, ← hsE, filterStrength_map_str]

/-- Witness for C7: a known weakness tag passes through, an unknown one
is removed, and the surviving tags are vocabulary members. -/
theorem C7_witness :
    ∃ ev, normalize_evaluation_result
        (.obj [("weakness_tags", .arr [.str "结构不清晰", .str "这不是标签"]),
               ("strength_tags", .arr [.str "逻辑严谨"])]) = .ok ev ∧
      (∀ t ∈ ev.weakness_tags, t ∈ WEAKNESS_TAGS) ∧
      ev.weakness_tags = ["结构不清晰"] ∧ ev.strength_tags = ["逻辑严谨"] := by
  have hnorm : normalize_evaluation_result
      (.obj [("weakness_tags", .arr [.str "结构不清晰", .str "这不是标签"]),
             ("strength_tags", .arr [.str "逻辑严谨"])]) =
      .ok ⟨5, .str "", ["结构不清晰"], ["逻辑严谨"], .arr [], .str "", none⟩ := rfl
  refine ⟨_, hnorm, ?_, ?_, ?_⟩
  · exact (C7_tags_filtered_by_vocabulary _ _ hnorm).1
  · have h := (C7_tags_filtered_by_vocabulary _ _ hnorm).2.2.1
      ["结构不清晰", "这不是标签"] rfl rfl
    rw [h]; decide
  · have h := (C7_tags_filtered_by_vocabulary _ _ hnorm).2.2.2
      ["逻辑严谨"] rfl rfl
    rw [h]; decide

/-- C2: the follow-up policy is a pure function applying its rules in
fixed order with first match winning — disabled wins, then low score,
then trigger keyword, then brevity, else no follow-up; an answer of
trimmed length 10 with score 7 and no trigger keywords yields the
answer-too-brief follow-up. -/
theorem C2_follow_up_policy (answer : String) (ev : EvalResult) :
    (∀ cfg : FollowUpConfig, cfg.enabled = false →
      should_follow_up cfg answer ev = (false, "")) ∧
    (FOLLOW_UP_CONFIG.enabled = true ∧ FOLLOW_UP_CONFIG.trigger_score_threshold = 6) ∧
    (ev.score < 6 →
      should_follow_up FOLLOW_UP_CONFIG answer ev = (true, "回答需要更多细节")) ∧
    (∀ kw, 6 ≤ ev.score →
      findTriggerKeyword FOLLOW_UP_CONFIG.trigger_keywords answer = some kw →
      should_follow_up FOLLOW_UP_CONFIG answer ev =
        (true, "回答中提到「" ++ kw ++ "」，需要澄清")) ∧
    (6 ≤ ev.score → (∀ kw ∈ FOLLOW_UP_CONFIG.trigger_keywords, pyInStr kw answer = false) →
      (pyStrip answer).length < 50 →
      should_follow_up FOLLOW_UP_CONFIG answer ev = (true, "回答较简短，可以展开")) ∧
    (6 ≤ ev.score → (∀ kw ∈ FOLLOW_UP_CONFIG.trigger_keywords, pyInStr kw answer = false) →
      50 ≤ (pyStrip answer).length →
      should_follow_up FOLLOW_UP_CONFIG answer ev = (false, "")) ∧
    ((pyStrip answer).length = 10 → ev.score = 7 →
      (∀ kw ∈ FOLLOW_UP_CONFIG.trigger_keywords, pyInStr kw answer = false) →
      should_follow_up FOLLOW_UP_CONFIG answer ev = (true, "回答较简短，可以展开")) := by
  have hnone : (∀ kw ∈ FOLLOW_UP_CONFIG.trigger_keywords, pyInStr kw answer = false) →
      findTriggerKeyword FOLLOW_UP_CONFIG.trigger_keywords answer = none := by
    intro hall
    rw [findTriggerKeyword, List.find?_eq_none]
    intro kw hkw
    simp [hall kw hkw]
  have hbrief : 6 ≤ ev.score →
      (∀ kw ∈ FOLLOW_UP_CONFIG.trigger_keywords, pyInStr kw answer = false) →
      (pyStrip answer).length < 50 →
      should_follow_up FOLLOW_UP_CONFIG answer ev = (true, "回答较简短，可以展开") := by
    intro hge hall hlen
    rw [should_follow_up, if_neg (by simp [FOLLOW_UP_CONFIG]),
      if_neg (by simp [FOLLOW_UP_CONFIG]; exact hge), hnone hall,
      if_pos hlen]
  refine ⟨?_, ⟨rfl, rfl⟩, ?_, ?_, hbrief, ?_, ?_⟩
  · intro cfg hcfg
    rw [should_follow_up, if_pos (by simp [hcfg])]
  · intro hlt
    rw [should_follow_up, if_neg (by simp [FOLLOW_UP_CONFIG]),
      if_pos (by simpa [FOLLOW_UP_CONFIG] using hlt)]
  · intro kw hge hfind
    rw [should_follow_up, if_neg (by simp [FOLLOW_UP_CONFIG]),
      if_neg (by simp [FOLLOW_UP_CONFIG]; exact hge), hfind]
  · intro hge hall hlen
    rw [should_follow_up, if_neg (by simp [FOLLOW_UP_CONFIG]),
      if_neg (by simp [FOLLOW_UP_CONFIG]; exact hge), hnone hall,
      if_neg (by omega)]
  · intro hlen hscore hall
    exact hbrief (by rw [hscore]; norm_num) hall (by omega)

/-- Witness for C2: the scenario answer `"abcdefghij"` (trimmed length
10, keyword-free) with a score-7 evaluation gets the answer-too-brief
follow-up. -/
theorem C2_witness :
    should_follow_up FOLLOW_UP_CONFIG "abcdefghij"
      ⟨7, .str "", [], [], .arr [], .str "", none⟩ = (true, "回答较简短，可以展开") :=
  (C2_follow_up_policy "abcdefghij" ⟨7, .str "", [], [], .arr [], .str "", none⟩).2.2.2.2.2.2
    (by decide) rfl (by decide)

/-- C8 (code behaviour at the failing input): handing the normalizer a
parsed JSON array — a value `_parse_json_response` can return — raises
`AttributeError` instead of recovering locally, both on the plain-array
path and on the array-containing-"error" path. -/
theorem C8_array_input_raises :
    normalize_evaluation_result (.arr [.num 5]) =
      .error (.attributeError "list object has no attribute get") ∧
    normalize_evaluation_result (.arr [.str "error"]) =
      .error (.attributeError "list object has no attribute get") :=
  ⟨rfl, rfl⟩

/-- C10 counterexample: at score 6.5 the claim's stated decision
`"候补"` is wrong — the mid-tier entry returned carries the decision
`"候补/观察"`. -/
theorem C10_counterexample :
    (get_score_level (13/2)).decision = "候补/观察" ∧
    ¬ (get_score_level (13/2)).decision = "候补" := by
  constructor
  · decide
  · decide

/-- C10 (amended): `get_score_level` is total and returns the mid-tier
`(5, 6)` entry — whose decision is `"候补/观察"` — for every score in
no configured band, including 6.5, -1 and 11. -/
theorem C10_mid_tier_fallback (score : ℚ)
    (h : ∀ band ∈ SCORE_LEVELS, ¬ (band.1.1 ≤ score ∧ score ≤ band.1.2)) :
    get_score_level score = SCORE_LEVEL_MID ∧
    get_score_level (13/2) = SCORE_LEVEL_MID ∧
    get_score_level (-1) = SCORE_LEVEL_MID ∧
    get_score_level 11 = SCORE_LEVEL_MID ∧
    SCORE_LEVEL_MID.decision = "候补/观察" := by
  refine ⟨?_, by decide, by decide, by decide, rfl⟩
  rw [get_score_level, List.find?_eq_none.mpr]
  intro band hband
  simpa using h band hband

/-- Witness for C10 at score 6.5: no configured band contains it, and
the mid-tier entry is returned. -/
theorem C10_witness :
    get_score_level (13/2) = SCORE_LEVEL_MID ∧ SCORE_LEVEL_MID.decision = "候补/观察" :=
  ⟨(C10_mid_tier_fallback (13/2) (by decide)).1,
   (C10_mid_tier_fallback (13/2) (by decide)).2.2.2.2⟩

/-- The weighted-score fold accumulates the weight sum and the
weighted score sum. -/
lemma weighted_foldl (rounds : List RoundRecord) (a b : ℚ) :
    rounds.foldl
      (fun (acc : ℚ × ℚ) r =>
        let role := pyReplace r.role "_followup" ""
        let weight := get_round_weight role
        (acc.1 + weight, acc.2 + r.score * weight)) (a, b) =
    (a + (rounds.map fun r => wOf r).sum, b + (rounds.map fun r => r.score * wOf r).sum) := by
  induction rounds generalizing a b with
  | nil => simp
  | cons r rs ih =>
    rw [List.foldl_cons, ih]
    simp only [List.map_cons, List.sum_cons, wOf, Prod.mk.injEq]
    constructor <;> ring

/-- Every configured round weight is positive. -/
lemma lookup_config_weight_pos (key : String) (c : RoundConfig)
    (h : List.lookup key INTERVIEW_ROUNDS_CONFIG = some c) : 0 < c.weight := by
  simp only [INTERVIEW_ROUNDS_CONFIG, List.lookup] at h
  repeat' split at h
  all_goals first
    | (injection h with h'; subst h'; decide)
    | injection h

/-- Every round record contributes a positive weight (the unknown-role
default 0.2 included). -/
lemma wOf_pos (r : RoundRecord) : 0 < wOf r := by
  rw [wOf, get_round_weight]
  cases h : List.lookup (pyReplace r.role "_followup" "") INTERVIEW_ROUNDS_CONFIG with
  | none => norm_num
  | some c => exact lookup_config_weight_pos _ c h

/-- C3: the weighted composite equals the sum of `score × weight of the
base role` over all round records, divided by the sum of the weights
actually encountered, rounded to 2 decimals; on the scenario session
(HR = 8, Technical = 4, CultureFit = 9) it is 6.08. -/
theorem C3_weighted_composite (rounds : List RoundRecord) (hne : rounds ≠ []) :
    calculate_weighted_score rounds =
      round2 ((rounds.map fun r => r.score * wOf r).sum / (rounds.map fun r => wOf r).sum) ∧
    calculate_weighted_score exampleRounds = 608/100 := by
  constructor
  · have hpos : 0 < (rounds.map fun r => wOf r).sum := by
      apply List.sum_pos
      · intro x hx
        obtain ⟨r, _, rfl⟩ := List.mem_map.mp hx
        exact wOf_pos r
      · intro hmap
        exact hne (List.map_eq_nil_iff.mp hmap)
    rw [calculate_weighted_score, weighted_foldl]
    simp only [zero_add]
    rw [if_pos hpos]
  · decide

/-- Witness for C3 at the scenario session: the fold equals the
normalized weighted sum and evaluates to 6.08. -/
theorem C3_witness :
    calculate_weighted_score exampleRounds =
      round2 ((exampleRounds.map fun r => r.score * wOf r).sum /
        (exampleRounds.map fun r => wOf r).sum) ∧
    calculate_weighted_score exampleRounds = 608/100 :=
  C3_weighted_composite exampleRounds (by simp [exampleRounds])

/-- Appending an entry with a falsy final score leaves the aggregated
score list unchanged. -/
lemma truthyScores_append_falsy (history : List HistoryEntry) (e : HistoryEntry)
    (he : pyTruthyScore e.final_score = false) :
    truthyScores (history ++ [e]) = truthyScores history := by
  rw [truthyScores, truthyScores, List.filterMap_append]
  simp [truthyScores, he]

/-- A history of falsy final scores aggregates to the empty score
list. -/
lemma truthyScores_eq_nil (history : List HistoryEntry)
    (h : ∀ x ∈ history, pyTruthyScore x.final_score = false) :
    truthyScores history = [] := by
  induction history with
  | nil => rfl
  | cons x xs ih =>
    rw [truthyScores, List.filterMap_cons]
    rw [h x (by simp)]
    simpa [truthyScores] using ih fun y hy => h y (by simp [hy])

/-- `_update_statistics` always sets `total_interviews` to the full
history length. -/
lemma update_statistics_total (user : UserMemory) :
    (update_statistics user).statistics.total_interviews =
      user.interview_history.length := by
  simp only [update_statistics]
  repeat' split
  all_goals rfl

/-- When the truthy-score list is empty, `_update_statistics` leaves
the average and best score untouched. -/
lemma update_statistics_empty_scores (user : UserMemory)
    (h : truthyScores user.interview_history = []) :
    (update_statistics user).statistics.average_score = user.statistics.average_score ∧
    (update_statistics user).statistics.best_score = user.statistics.best_score := by
  simp only [update_statistics, h, List.isEmpty_nil]
  repeat' split
  all_goals first
    | exact ⟨rfl, rfl⟩
    | simp_all

/-- When the truthy-score list is a fixed non-empty list, average and
best are computed from it alone. -/
lemma update_statistics_scores (user : UserMemory) (sc : List ℚ)
    (h : truthyScores user.interview_history = sc) (hne : sc ≠ []) :
    (update_statistics user).statistics.average_score = round2 (sc.sum / sc.length) ∧
    (update_statistics user).statistics.best_score = pyMaxScores sc := by
  have hhist : user.interview_history.isEmpty = false := by
    cases hh : user.interview_history with
    | nil => rw [hh] at h; exact absurd h.symm hne
    | cons a as => rfl
  have hsc : sc.isEmpty = false := by
    cases sc with
    | nil => exact absurd rfl hne
    | cons a as => rfl
  simp only [update_statistics, h, hhist, hsc, Bool.false_eq_true, if_false]
  repeat' split
  all_goals exact ⟨rfl, rfl⟩

/-- C9: `_update_statistics` filters the history by truthiness of
`final_score` — entries with score 0, `None` or no score count toward
`total_interviews` but are excluded from `average_score`/`best_score`;
a history of only such entries leaves both untouched. -/
theorem C9_statistics_truthiness (user : UserMemory) (e : HistoryEntry)
    (he : e.final_score = none ∨ e.final_score = some 0) :
    (update_statistics user).statistics.total_interviews =
      user.interview_history.length ∧
    ((∀ x ∈ user.interview_history, x.final_score = none ∨ x.final_score = some 0) →
      (update_statistics user).statistics.average_score = user.statistics.average_score ∧
      (update_statistics user).statistics.best_score = user.statistics.best_score) ∧
    ((update_statistics { user with
        interview_history := user.interview_history ++ [e] }).statistics.average_score =
      (update_statistics user).statistics.average_score ∧
     (update_statistics { user with
        interview_history := user.interview_history ++ [e] }).statistics.best_score =
      (update_statistics user).statistics.best_score ∧
     (update_statistics { user with
        interview_history := user.interview_history ++ [e] }).statistics.total_interviews =
      user.interview_history.length + 1) := by
  have falsy : ∀ x : HistoryEntry, x.final_score = none ∨ x.final_score = some 0 →
      pyTruthyScore x.final_score = false := by
    rintro x (hx | hx) <;> simp [pyTruthyScore, hx]
  refine ⟨update_statistics_total user, ?_, ?_⟩
  · intro hall
    exact update_statistics_empty_scores user
      (truthyScores_eq_nil _ fun x hx => falsy x (hall x hx))
  · set user' : UserMemory :=
      { user with interview_history := user.interview_history ++ [e] } with huser
    have hsc : truthyScores user'.interview_history = truthyScores user.interview_history :=
      truthyScores_append_falsy _ _ (falsy e he)
    have htot : (update_statistics user').statistics.total_interviews =
        user.interview_history.length + 1 := by
      rw [update_statistics_total user']
      simp [huser]
    cases hsc0 : truthyScores user.interview_history with
    | nil =>
      have h1 := update_statistics_empty_scores user hsc0
      have h2 := update_statistics_empty_scores user' (by rw [hsc, hsc0])
      exact ⟨by rw [h1.1, h2.1], by rw [h1.2, h2.2], htot⟩
    | cons a as =>
      have h1 := update_statistics_scores user (a :: as) hsc0 (by simp)
      have h2 := update_statistics_scores user' (a :: as) (by rw [hsc, hsc0]) (by simp)
      exact ⟨by rw [h1.1, h2.1], by rw [h1.2, h2.2], htot⟩

/-- Witness for C9: a history of one zero-scored and one scoreless
entry counts 2 interviews but keeps the previous average (4.2) and best
(9). -/
theorem C9_witness :
    (update_statistics exampleUser9).statistics.total_interviews = 2 ∧
    (update_statistics exampleUser9).statistics.average_score = 42/10 ∧
    (update_statistics exampleUser9).statistics.best_score = 9 := by
  have h := C9_statistics_truthiness exampleUser9 ⟨none, 0, .null, 0, .null, .null⟩ (Or.inl rfl)
  have h2 := h.2.1 (by decide)
  refine ⟨?_, ?_, ?_⟩
  · rw [h.1]; decide
  · rw [h2.1]; decide
  · rw [h2.2]; decide

/-- Shape of every successful `run_single_round`: one main record is
appended, and either nothing else happens, or exactly one follow-up
record is appended and the final score becomes the follow-up
evaluation's. -/
lemma run_single_round_elim (agentKey : String) (session session' : SessionMemory)
    (o : RoundOracle) (outcome : RoundOutcome)
    (h : run_single_round agentKey session o = .ok (session', outcome)) :
    ∃ evaluation, normalize_evaluation_result o.eval_raw = .ok evaluation ∧
      ((session'.rounds = session.rounds ++
          [roundRecordOf agentKey o.question o.answer evaluation false] ∧
        outcome.questions = [⟨o.question, o.answer, evaluation, false, none⟩] ∧
        outcome.final_score = evaluation.score) ∨
       (∃ fuEval reason, normalize_evaluation_result o.follow_up_eval_raw = .ok fuEval ∧
        session'.rounds = session.rounds ++
          [roundRecordOf agentKey o.question o.answer evaluation false,
           roundRecordOf (agentKey ++ "_followup") o.follow_up_question
             o.follow_up_answer fuEval true] ∧
        outcome.questions = [⟨o.question, o.answer, evaluation, false, none⟩,
          ⟨o.follow_up_question, o.follow_up_answer, fuEval, true, some reason⟩] ∧
        outcome.final_score = fuEval.score)) := by
  cases hev : normalize_evaluation_result o.eval_raw with
  | error e => simp [run_single_round, hev] at h
  | ok evaluation =>
    simp only [run_single_round, hev] at h
    refine ⟨evaluation, rfl, ?_⟩
    repeat' split at h
    all_goals
      first
      | exact Except.noConfusion h
      | (obtain ⟨rfl, rfl⟩ := h
         left
         exact ⟨by simp [addRound], rfl, rfl⟩)
      | (rename_i heqfu
         cases hfu : normalize_evaluation_result o.follow_up_eval_raw with
         | error e => simp [handle_follow_up, hfu] at heqfu
         | ok fuEval =>
           simp only [handle_follow_up, hfu, Except.ok.injEq, Prod.mk.injEq] at heqfu
           obtain ⟨rfl, rfl⟩ := heqfu
           obtain ⟨rfl, rfl⟩ := h
           right
           exact ⟨fuEval, _, rfl, by simp [addRound], rfl, rfl⟩)

/-- C5: a single round appends at most one follow-up record to
`SessionMemory`, however many policy conditions matched. -/
theorem C5_at_most_one_follow_up (agentKey : String) (session session' : SessionMemory)
    (o : RoundOracle) (outcome : RoundOutcome)
    (h : run_single_round agentKey session o = .ok (session', outcome)) :
    ∃ new, session'.rounds = session.rounds ++ new ∧
      (new.filter fun r => r.is_follow_up).length ≤ 1 := by
  obtain ⟨evaluation, -, hc | hc⟩ := run_single_round_elim agentKey session session' o outcome h
  · exact ⟨_, hc.1, by simp [roundRecordOf]⟩
  · obtain ⟨fuEval, reason, -, hs, -, -⟩ := hc
    exact ⟨_, hs, by simp [roundRecordOf]⟩

/-- Witness for C5: running the HR round on a hedging short answer (so
the policy fires) appends exactly one follow-up record. -/
theorem C5_witness :
    ∃ s' oc, run_single_round "HR" ⟨[], none⟩ exampleOracleShort = .ok (s', oc) ∧
      ∃ new, s'.rounds = (⟨[], none⟩ : SessionMemory).rounds ++ new ∧
        (new.filter fun r => r.is_follow_up).length ≤ 1 := by
  refine ⟨_, _, rfl, ?_⟩
  exact C5_at_most_one_follow_up "HR" ⟨[], none⟩ _ exampleOracleShort _ rfl

/-- C6: a round outcome's reported final score is the score of the
last evaluation of the round — the follow-up's when one occurred, the
main one's otherwise. -/
theorem C6_final_score_is_last_evaluation (agentKey : String) (session session' : SessionMemory)
    (o : RoundOracle) (outcome : RoundOutcome)
    (h : run_single_round agentKey session o = .ok (session', outcome)) :
    ∃ main, outcome.questions.head? = some main ∧ main.is_follow_up = false ∧
      ((outcome.questions = [main] ∧ outcome.final_score = main.evaluation.score) ∨
       (∃ fu, outcome.questions = [main, fu] ∧ fu.is_follow_up = true ∧
         outcome.final_score = fu.evaluation.score)) := by
  obtain ⟨evaluation, -, hc | hc⟩ := run_single_round_elim agentKey session session' o outcome h
  · exact ⟨_, by rw [hc.2.1]; rfl, rfl, Or.inl ⟨hc.2.1, hc.2.2⟩⟩
  · obtain ⟨fuEval, reason, -, -, hq, hf⟩ := hc
    exact ⟨_, by rw [hq]; rfl, rfl, Or.inr ⟨_, hq, rfl, hf⟩⟩

/-- Witness for C6: on the hedging short answer the follow-up fires
(main score 7, follow-up score 9) and the reported final score is the
follow-up's 9. -/
theorem C6_witness :
    ∃ s' oc, run_single_round "HR" ⟨[], none⟩ exampleOracleShort = .ok (s', oc) ∧
      oc.final_score = 9 ∧
      ∃ main, oc.questions.head? = some main ∧ main.is_follow_up = false ∧
        ((oc.questions = [main] ∧ oc.final_score = main.evaluation.score) ∨
         (∃ fu, oc.questions = [main, fu] ∧ fu.is_follow_up = true ∧
           oc.final_score = fu.evaluation.score)) := by
  refine ⟨_, _, rfl, by decide, ?_⟩
  exact C6_final_score_is_last_evaluation "HR" ⟨[], none⟩ _ exampleOracleShort _ rfl

/-- On an error-marked dict, `_normalize_final_evaluation` returns the
fallback record: session average as the score, decision `"候补"`. -/
lemma normalize_final_error (fields : List (String × JVal)) (summary : SessionSummary)
    (herr : (fields.any fun kv => kv.1 == "error") = true) :
    normalize_final_evaluation (.obj fields) summary =
      .ok { final_score := summary.average_score
            decision := .str "候补"
            decision_reason := .str "评估生成过程出现问题，请参考各轮反馈。"
            overall_feedback := .str "系统暂时无法生成完整评估，建议查看各轮次的详细反馈。"
            dimension_scores := .obj []
            key_strengths := .arr ((summary.all_strength_tags.take 3).map .str)
            key_weaknesses := .arr ((summary.all_weakness_tags.take 3).map .str)
            improvement_suggestions := .arr [.str "建议重新进行面试模拟以获取完整评估"]
            practice_focus := .arr []
            next_steps := .str "请重试面试模拟"
            raw_error := some ((List.lookup "raw" fields).getD (.str ""))
            comparative_analysis := none } := by
  simp only [normalize_final_evaluation, pyContainsStr, herr, pyGetD]

/-- `_update_statistics` only rewrites the statistics block, never the
history. -/
lemma update_statistics_history (user : UserMemory) :
    (update_statistics user).interview_history = user.interview_history := rfl

/-- C4: when the panel-synthesis generation result is an error
sentinel, the full interview still completes — the stored final
evaluation falls back to decision `"候补"` with the session's simple
average as its score, the candidate memory gains the new history entry
and the updated tag counts, and both memories reach their save
calls. -/
theorem C4_panel_error_still_completes (user : UserMemory) (oracleFor : String → RoundOracle)
    (fields : List (String × JVal)) (comparative : String)
    {session1 : SessionMemory} {outs : List RoundOutcome}
    (hrounds : run_rounds oracleFor round_order ⟨[], none⟩ = .ok (session1, outs))
    (herr : (fields.any fun kv => kv.1 == "error") = true) :
    ∃ res : FullInterviewResult,
      run_full_interview user oracleFor (.obj fields) comparative = .ok res ∧
      (∃ fe, res.session.final_evaluation = some fe ∧
        fe.decision = .str "候补" ∧
        fe.final_score = get_average_score res.session) ∧
      res.user.interview_history.length = user.interview_history.length + 1 ∧
      res.user.weakness_tags =
        addTagCounts user.weakness_tags (get_all_weakness_tags res.session) ∧
      res.user_saved = true ∧ res.session_saved = true := by
  have hnorm := normalize_final_error fields (build_session_summary session1) herr
  simp only [run_full_interview, hrounds, run_committee_evaluation, hnorm]
  cases hh : user.interview_history.isEmpty with
  | true =>
    simp only [hh, if_true]
    refine ⟨_, rfl, ⟨_, rfl, rfl, rfl⟩, ?_, rfl, rfl, rfl⟩
    simp [saveUserMemory, update_statistics_history]
  | false =>
    simp only [hh, Bool.false_eq_true, if_false]
    refine ⟨_, rfl, ⟨_, rfl, rfl, rfl⟩, ?_, rfl, rfl, rfl⟩
    simp [saveUserMemory, update_statistics_history]

/-- Witness for C4: a concrete full interview whose four rounds score
7 and whose panel stage returns the error sentinel still completes
with the fallback final evaluation and a persisted, updated candidate
memory. -/
theorem C4_witness :
    ∃ res : FullInterviewResult,
      run_full_interview exampleUser (fun _ => exampleOracle)
        (.obj examplePanelError) "" = .ok res ∧
      (∃ fe, res.session.final_evaluation = some fe ∧
        fe.decision = .str "候补" ∧
        fe.final_score = get_average_score res.session) ∧
      res.user.interview_history.length = exampleUser.interview_history.length + 1 ∧
      res.user.weakness_tags =
        addTagCounts exampleUser.weakness_tags (get_all_weakness_tags res.session) ∧
      res.user_saved = true ∧ res.session_saved = true :=
  C4_panel_error_still_completes exampleUser (fun _ => exampleOracle) examplePanelError ""
    rfl (by decide)

end ClaimProofs

end InterviewSim
